import Mathlib

/-!
Shallow embedding of `lodash-provider` (src/index.js, the Proxy-based
variant) and proofs about its property-interception layer.

The module keeps two process-wide objects:
  * `lookup`  — the Proxy target, a plain JS object mapping property keys
    to values (user-assigned functions, and the `__require` override);
  * `deleted` — a plain JS object mapping property keys to booleans
    (tombstones; `deleted[p]` truthy means `p` is masked).

Property keys in JS are strings or symbols; both are modelled.  Plain JS
objects are modelled as insertion-ordered association lists (assignment
to an existing key keeps its position, a new key is appended — the
enumeration order JS gives to non-integer string keys).  The
`Object.prototype` chain is not modelled: `property in target` is read
as own-key lookup, which is faithful for every key that does not collide
with an `Object.prototype` built-in (no claim concerns those).

The ambient world (what `require` can load, what a user-installed
loader returns when called, what `readFileSync(require.resolve(id))`
yields, and the directory stack `getPathStack` computes from the module
tree) is an explicit `Env` record; functions are modelled by an opaque
identity `fnId` (invocation behaviour) plus the JS `name` of the
function and an optional patched `toString` text.  A load that throws is
`none`.
-/

/-- A JS property key: a string, or a symbol (identified by a number). -/
inductive PropKey
  | str (s : String)
  | sym (id : Nat)
deriving DecidableEq, Repr

/-- A JS value, at the granularity the claims need.  A function value
carries an opaque id `fnId` deciding its invocation behaviour, its JS
`name`, and the optional text installed by the `method.toString = ...`
patch in `lodashRequire`.  `emptyObj` is the `{}` that `tryModule`
returns on a failed load. -/
inductive Value
  | undefined
  | emptyObj
  | boolV (b : Bool)
  | strV (s : String)
  | fn (fnId : Nat) (name : String) (toStr : Option String)
deriving DecidableEq, Repr

/-- A parsed `package.json`: the names (`Object.keys`) of the two
dependency sections, in manifest order. -/
structure Manifest where
  dependencies : List String
  devDependencies : List String
deriving DecidableEq, Repr

/-- The ambient world outside the module's own state.
`manifests` is `require(dir + "/package.json")` (none = throw);
`ambientModules` is the ambient `require` on module ids (none = throw);
`callFn fid id` is what the function value with identity `fid` returns
when called with `id` (none = throw) — used for user-installed loaders;
`sourceText id` is `readFileSync(require.resolve(id))` (none = throw);
`paths` is the directory stack `getPathStack()` derives from the module
parent chain. -/
structure Env where
  manifests : String → Option Manifest
  ambientModules : String → Option Value
  callFn : Nat → String → Option Value
  sourceText : String → Option String
  paths : List String

/-- Errors that can escape to the caller of a trapped operation. -/
inductive JsError
  | typeError
  | referenceError (msg : String)
deriving DecidableEq, Repr

/-- Own-property read on a plain object (`target[k]` /
`target.hasOwnProperty(k)` combined): first binding of `k`. -/
def getOwn : List (PropKey × Value) → PropKey → Option Value
  | [], _ => none
  | (k', v) :: rest, k => if k' = k then some v else getOwn rest k

/-- JS assignment `obj[k] = v` on a plain object: overwrite in place if
the key exists (keeping its insertion position), else append. -/
def setEntry : List (PropKey × Value) → PropKey → Value → List (PropKey × Value)
  | [], k, v => [(k, v)]
  | (k', v') :: rest, k, v =>
      if k' = k then (k, v) :: rest else (k', v') :: setEntry rest k v

/-- Truthiness of `deleted[k]`: the stored boolean, absent = false. -/
def flagOf : List (PropKey × Bool) → PropKey → Bool
  | [], _ => false
  | (k', b) :: rest, k => if k' = k then b else flagOf rest k

/-- JS assignment `deleted[k] = b`. -/
def setFlag : List (PropKey × Bool) → PropKey → Bool → List (PropKey × Bool)
  | [], k, b => [(k, b)]
  | (k', b') :: rest, k, b =>
      if k' = k then (k, b) :: rest else (k', b') :: setFlag rest k b

/-- `Reflect.ownKeys` of a plain object: its keys in insertion order. -/
def keysOf (l : List (PropKey × Value)) : List PropKey :=
  l.map Prod.fst

/-- `lodash.uniq`: keep the first occurrence of each element. -/
def uniqKeys (l : List PropKey) : List PropKey :=
  l.foldl (fun acc k => if k ∈ acc then acc else acc ++ [k]) []

/-- JS `String.prototype.toLowerCase` at the ASCII granularity of JS
function names: char-wise lower-casing. -/
def toLowerAscii (s : String) : String :=
  String.mk (s.data.map Char.toLower)

/-- `getLodashId`: lower-case the function name and prefix `lodash.`. -/
def getLodashId (functionName : String) : String :=
  "lodash." ++ toLowerAscii functionName

/-- Boolean prefix test on character lists (first argument is the
candidate prefix). -/
def strHasPrefix : List Char → List Char → Bool
  | [], _ => true
  | _ :: _, [] => false
  | c :: cs, d :: ds => c = d && strHasPrefix cs ds

/-- The regex `/^lodash\.[a-z0-9]/`: prefix `lodash.` followed by at
least one lower-case-alphanumeric character. -/
def lodashTest (s : String) : Bool :=
  strHasPrefix "lodash.".data s.data &&
    (match s.data.drop 7 with
     | c :: _ => (Char.ofNat 97 ≤ c && c ≤ Char.ofNat 122) ||
                 (Char.ofNat 48 ≤ c && c ≤ Char.ofNat 57)
     | [] => false)

/-- The template built by `lodashFunctionToString`'s returned closure. -/
def wrapSource (functionName moduleText : String) : String :=
  "function " ++ functionName ++ "() \x7bconst module = \x7bexports:\x7b\x7d\x7d;"
    ++ moduleText ++ "\nreturn module.exports.apply(\x7b\x7d, arguments);\x7d;"

/-- The body of `lodashRequire`'s `try` block: call the supplied loader
(`require(moduleId)`) and patch `method.toString`.  Calling a
non-function loader throws; so does the strict-mode `toString`
assignment on a primitive export, and a failing
`readFileSync(require.resolve(id))` inside `lodashFunctionToString` —
all inside the `try`, so all yield `none` here. -/
def requireStep (env : Env) (req : Value) (functionName moduleId : String) :
    Option Value :=
  match (match req with
         | Value.fn fid _ _ => env.callFn fid moduleId
         | _ => none) with
  | some (Value.fn fid nm _) =>
      match env.sourceText moduleId with
      | some text => some (Value.fn fid nm (some (wrapSource functionName text)))
      | none => none
  | _ => none

/-- `lodashRequire(functionName, require)`: derive the module id, try to
load and patch; on any failure throw the `ReferenceError` with the
install hint. -/
def lodashRequire (env : Env) (req : Value) (functionName : String) :
    Except JsError Value :=
  let moduleId := getLodashId functionName
  match requireStep env req functionName moduleId with
  | some v => Except.ok v
  | none => Except.error (JsError.referenceError
      ("Could not find " ++ functionName ++ ", did you forget to install " ++ moduleId))

/-- The module's process-wide mutable state: the Proxy target `lookup`,
the tombstone object `deleted`, and the memo of `setLodashFunctions`
(in Proxy mode it is only ever called with no argument, so a single
cached result models `lodash.memoize`). -/
structure ProxyState where
  lookup : List (PropKey × Value)
  deleted : List (PropKey × Bool)
  snapCache : Option (List (PropKey × Value))
deriving Repr

/-- The state the module starts with: `lookup = {}`, `deleted = {}`,
nothing memoized. -/
def initState : ProxyState := ⟨[], [], none⟩

/-- `tryModule(path)` for a candidate module id: the ambient `require`,
with a thrown load absorbed into `{}`. -/
def tryModuleV (env : Env) (id : String) : Value :=
  (env.ambientModules id).getD Value.emptyObj

/-- `tryPackage(path)`: `tryModule(path + "/package.json")`, a failed
load absorbed into the empty manifest. -/
def tryPackageM (env : Env) (dir : String) : Manifest :=
  (env.manifests (dir ++ "/package.json")).getD ⟨[], []⟩

/-- `getPackageDataStack()`: a manifest (possibly empty) per path. -/
def getPackageDataStack (env : Env) : List Manifest :=
  env.paths.map (tryPackageM env)

/-- `loadPackageModules`: from one dependency section, the candidates
passing `lodashTest`, each loaded with the ambient `require` via
`tryModule`.  Also returns the candidate ids handed to `require`
(instrumentation: which module loads this section attempted). -/
def loadPackageModules (env : Env) (names : List String) :
    List Value × List String :=
  let cands := names.filter lodashTest
  (cands.map (tryModuleV env), cands)

/-- `getLodashFunctions`'s body: walk the package-data stack, loading
`dependencies` then `devDependencies` candidates of each manifest, in
order.  Returns the `packages` array and the attempted module ids. -/
def scanPackages (env : Env) : List Value × List String :=
  (getPackageDataStack env).foldl
    (fun acc pd =>
      let dep := loadPackageModules env pd.dependencies
      let dev := loadPackageModules env pd.devDependencies
      (acc.1 ++ dep.1 ++ dev.1, acc.2 ++ dep.2 ++ dev.2))
    ([], [])

/-- `exported.name` as a truthy string: the JS name of a function value
(`""`, like the absent name of `{}`, is falsy). -/
def exportedName : Value → Option String
  | Value.fn _ n _ => if n = "" then none else some n
  | _ => none

/-- The loop of `setLodashFunctions`: `lookup[exported.name] = exported`
for every scanned package with a truthy name, over a start object. -/
def buildSnapshot (init : List (PropKey × Value)) (packages : List Value) :
    List (PropKey × Value) :=
  packages.foldl
    (fun acc v =>
      match exportedName v with
      | some n => setEntry acc (PropKey.str n) v
      | none => acc)
    init

/-- `setLodashFunctions()` as the traps call it (no argument, so over a
fresh `{}`), memoized: return the cached snapshot if present, else scan
and cache.  Returns the snapshot, the updated state, and the module ids
the scan handed to the ambient `require` (empty on a memo hit). -/
def setLodashFunctionsM (env : Env) (s : ProxyState) :
    List (PropKey × Value) × ProxyState × List String :=
  match s.snapCache with
  | some snap => (snap, s, [])
  | none =>
      let scan := scanPackages env
      let snap := buildSnapshot [] scan.1
      (snap, { s with snapCache := some snap }, scan.2)

/-- `traps.get`: tombstoned → `undefined`; own property → the stored
value via `Reflect.get`; else `lodashRequire(property, lookup.__require)`.
For a symbol key the module-id derivation calls `toLowerCase` on the
symbol before the `try`, throwing a `TypeError`.  The trap mutates
nothing; the second component lists the module ids whose load the
resolver attempted (instrumentation). -/
def trapGet (env : Env) (s : ProxyState) (property : PropKey) :
    Except JsError Value × List String :=
  if flagOf s.deleted property then (Except.ok Value.undefined, [])
  else
    match getOwn s.lookup property with
    | some v => (Except.ok v, [])
    | none =>
        match property with
        | PropKey.str name =>
            (lodashRequire env
              ((getOwn s.lookup (PropKey.str "__require")).getD Value.undefined) name,
             [getLodashId name])
        | PropKey.sym _ => (Except.error JsError.typeError, [])

/-- `traps.set`: `deleted[property] = false`, then `Reflect.set` on the
target (which always succeeds on the plain extensible `lookup`). -/
def trapSet (s : ProxyState) (property : PropKey) (value : Value) : ProxyState :=
  { s with
    deleted := setFlag s.deleted property false,
    lookup := setEntry s.lookup property value }

/-- `traps.has`: tombstoned → false; `property in target` → true; else
membership in the `setLodashFunctions()` snapshot.  Returns the answer,
the updated state (memo fill), and the scan's attempted module ids. -/
def trapHas (env : Env) (s : ProxyState) (property : PropKey) :
    Bool × ProxyState × List String :=
  if flagOf s.deleted property then (false, s, [])
  else if (getOwn s.lookup property).isSome then (true, s, [])
  else
    let r := setLodashFunctionsM env s
    ((getOwn r.1 property).isSome, r.2)

/-- `traps.ownKeys`: `uniq` of the target's keys then the snapshot's
keys, with every tombstoned key filtered out. -/
def trapOwnKeys (env : Env) (s : ProxyState) :
    List PropKey × ProxyState × List String :=
  let r := setLodashFunctionsM env s
  (uniqKeys (keysOf s.lookup ++ keysOf r.1) |>.filter
      (fun k => flagOf s.deleted k = false),
   r.2)

/-- `traps.deleteProperty`'s state effect: `deleted[property] = true`.
The trap body has no `return` statement, so its value is `undefined`;
what the caller sees of that is modelled by `deleteOp` below. -/
def trapDeleteProperty (s : ProxyState) (property : PropKey) : ProxyState :=
  { s with deleted := setFlag s.deleted property true }

/-- The value the source's `deleteProperty` trap returns: nothing
(`undefined`), since its body has no `return` statement. -/
def trapDeleteReturn : Value := Value.undefined

/-- JS `ToBoolean` on the model's values. -/
def toBoolean : Value → Bool
  | Value.undefined => false
  | Value.emptyObj => true
  | Value.boolV b => b
  | Value.strV s => if s = "" then false else true
  | Value.fn _ _ _ => true

/-- `delete proxy[p]` as the caller sees it: the trap's state effect
happens, Proxy `[[Delete]]` coerces the trap's return value to a
boolean report, and — because the report is falsish — a strict-mode
caller's `delete` statement then throws a `TypeError` (a sloppy-mode
caller's evaluates to `false`).  Returns the new state, the `[[Delete]]`
report, and the strict-mode outcome. -/
def deleteOp (s : ProxyState) (p : PropKey) :
    ProxyState × Bool × Except JsError Bool :=
  let s' := trapDeleteProperty s p
  let report := toBoolean trapDeleteReturn
  (s', report, if report then Except.ok report else Except.error JsError.typeError)

/-- The public operations of the namespace object. -/
inductive Op
  | readP (p : PropKey)
  | writeP (p : PropKey) (v : Value)
  | hasP (p : PropKey)
  | keysP
  | deleteP (p : PropKey)
deriving DecidableEq, Repr

/-- The state after one public operation (`get` mutates nothing). -/
def step (env : Env) (s : ProxyState) : Op → ProxyState
  | Op.readP _ => s
  | Op.writeP p v => trapSet s p v
  | Op.hasP p => (trapHas env s p).2.1
  | Op.keysP => (trapOwnKeys env s).2.1
  | Op.deleteP p => trapDeleteProperty s p

/-- `hasProxyReflect()`: the probe's report, `false` when referencing
the interception mechanism throws (`none`). -/
def hasProxyReflect (probe : Option Bool) : Bool :=
  probe.getD false

/-- Fallback export: `setLodashFunctions(lookup)` over the initially
empty `lookup` — the eager flat snapshot. -/
def fallbackExport (env : Env) : List (PropKey × Value) :=
  buildSnapshot [] (scanPackages env).1

/-- Property read on the fallback plain object: `obj[k]`, `undefined`
when absent — no trap, no lazy path, no error. -/
def plainGet (obj : List (PropKey × Value)) (k : PropKey) : Value :=
  (getOwn obj k).getD Value.undefined

/-- What the module exports. -/
inductive Exported
  | proxyMode (s : ProxyState)
  | flat (obj : List (PropKey × Value))
deriving Repr

/-- Module initialization: Proxy around the empty `lookup` when the
probe succeeds, else the eagerly populated plain object. -/
def moduleInit (env : Env) (probe : Option Bool) : Exported :=
  if hasProxyReflect probe then Exported.proxyMode initState
  else Exported.flat (fallbackExport env)

/-! ### Basic lemmas about the object model -/

theorem getOwn_setEntry_self (l : List (PropKey × Value)) (k : PropKey) (v : Value) :
    getOwn (setEntry l k v) k = some v := by
  induction l with
  | nil => simp [setEntry, getOwn]
  | cons e rest ih =>
      obtain ⟨k', v'⟩ := e
      by_cases h : k' = k <;> simp [setEntry, getOwn, h, ih]

theorem getOwn_setEntry_ne (l : List (PropKey × Value)) (k k' : PropKey) (v : Value)
    (h : k' ≠ k) : getOwn (setEntry l k v) k' = getOwn l k' := by
  have h' : ¬ (k = k') := fun hh => h hh.symm
  induction l with
  | nil => simp [setEntry, getOwn, h']
  | cons e rest ih =>
      obtain ⟨k₀, v₀⟩ := e
      by_cases h0 : k₀ = k
      · subst h0
        simp [setEntry, getOwn, h']
      · simp [setEntry, getOwn, h0, ih]

theorem flagOf_setFlag_self (d : List (PropKey × Bool)) (k : PropKey) (b : Bool) :
    flagOf (setFlag d k b) k = b := by
  induction d with
  | nil => simp [setFlag, flagOf]
  | cons e rest ih =>
      obtain ⟨k', b'⟩ := e
      by_cases h : k' = k <;> simp [setFlag, flagOf, h, ih]

theorem flagOf_setFlag_ne (d : List (PropKey × Bool)) (k k' : PropKey) (b : Bool)
    (h : k' ≠ k) : flagOf (setFlag d k b) k' = flagOf d k' := by
  have h' : ¬ (k = k') := fun hh => h hh.symm
  induction d with
  | nil => simp [setFlag, flagOf, h']
  | cons e rest ih =>
      obtain ⟨k₀, b₀⟩ := e
      by_cases h0 : k₀ = k
      · subst h0
        simp [setFlag, flagOf, h']
      · simp [setFlag, flagOf, h0, ih]

theorem getOwn_eq_none_iff (l : List (PropKey × Value)) (k : PropKey) :
    getOwn l k = none ↔ k ∉ keysOf l := by
  induction l with
  | nil => simp [getOwn, keysOf]
  | cons e rest ih =>
      obtain ⟨k', v⟩ := e
      by_cases h : k' = k
      · subst h
        simp [getOwn, keysOf]
      · have h' : ¬ (k = k') := fun hh => h hh.symm
        simp [getOwn, keysOf, h, h', ih]

theorem mem_uniqKeys_aux (l : List PropKey) (acc : List PropKey) (k : PropKey) :
    k ∈ l.foldl (fun acc k => if k ∈ acc then acc else acc ++ [k]) acc ↔
      k ∈ acc ∨ k ∈ l := by
  induction l generalizing acc with
  | nil => simp
  | cons a rest ih =>
      simp only [List.foldl_cons]
      by_cases h : a ∈ acc
      · rw [if_pos h, ih]
        constructor
        · rintro (h1 | h1)
          · exact Or.inl h1
          · exact Or.inr (List.mem_cons_of_mem a h1)
        · rintro (h1 | h1)
          · exact Or.inl h1
          · rcases List.mem_cons.mp h1 with h2 | h2
            · exact Or.inl (h2 ▸ h)
            · exact Or.inr h2
      · rw [if_neg h, ih]
        simp only [List.mem_append, List.mem_singleton, List.mem_cons]
        tauto

theorem mem_uniqKeys (l : List PropKey) (k : PropKey) :
    k ∈ uniqKeys l ↔ k ∈ l := by
  rw [uniqKeys, mem_uniqKeys_aux]
  simp

theorem nodup_uniqKeys_aux (l : List PropKey) (acc : List PropKey) (h : acc.Nodup) :
    (l.foldl (fun acc k => if k ∈ acc then acc else acc ++ [k]) acc).Nodup := by
  induction l generalizing acc with
  | nil => simpa using h
  | cons a rest ih =>
      simp only [List.foldl_cons]
      by_cases ha : a ∈ acc
      · rw [if_pos ha]; exact ih acc h
      · rw [if_neg ha]
        refine ih (acc ++ [a]) ?_
        rw [List.nodup_append]
        refine ⟨h, List.nodup_singleton a, ?_⟩
        intro x hx hxa
        rw [List.mem_singleton] at hxa
        exact ha (hxa ▸ hx)

theorem nodup_uniqKeys (l : List PropKey) : (uniqKeys l).Nodup :=
  nodup_uniqKeys_aux l [] List.nodup_nil

theorem mem_keysOf_iff (l : List (PropKey × Value)) (k : PropKey) :
    k ∈ keysOf l ↔ getOwn l k ≠ none := by
  constructor
  · intro h hn
    exact (getOwn_eq_none_iff l k).mp hn h
  · intro h
    by_contra hk
    exact h ((getOwn_eq_none_iff l k).mpr hk)

theorem mem_keys_setEntry_self (l : List (PropKey × Value)) (k : PropKey) (v : Value) :
    k ∈ keysOf (setEntry l k v) := by
  rw [mem_keysOf_iff, getOwn_setEntry_self]
  exact fun h => Option.noConfusion h

theorem mem_keys_setEntry_of_mem (l : List (PropKey × Value)) (k k' : PropKey) (v : Value)
    (h : k' ∈ keysOf l) : k' ∈ keysOf (setEntry l k v) := by
  by_cases he : k' = k
  · subst he
    exact mem_keys_setEntry_self l k' v
  · rw [mem_keysOf_iff, getOwn_setEntry_ne l k k' v he]
    exact (mem_keysOf_iff l k').mp h

theorem keys_buildSnapshot_mono (packages : List Value) :
    ∀ (init : List (PropKey × Value)) (k : PropKey), k ∈ keysOf init →
      k ∈ keysOf (buildSnapshot init packages) := by
  induction packages with
  | nil =>
      intro init k h
      simpa [buildSnapshot] using h
  | cons q rest ih =>
      intro init k h
      rcases hq : exportedName q with _ | n
      · simpa [buildSnapshot, List.foldl_cons, hq] using ih init k h
      · simpa [buildSnapshot, List.foldl_cons, hq] using
          ih (setEntry init (PropKey.str n) q) k (mem_keys_setEntry_of_mem _ _ _ _ h)

theorem mem_keys_buildSnapshot (packages : List Value) :
    ∀ (init : List (PropKey × Value)) (p : Value), p ∈ packages →
      ∀ n : String, exportedName p = some n →
        PropKey.str n ∈ keysOf (buildSnapshot init packages) := by
  induction packages with
  | nil =>
      intro init p hp
      cases hp
  | cons q rest ih =>
      intro init p hp n hn
      rcases List.mem_cons.mp hp with h1 | h1
      · subst h1
        simpa [buildSnapshot, List.foldl_cons, hn] using
          keys_buildSnapshot_mono rest (setEntry init (PropKey.str n) p) _
            (mem_keys_setEntry_self _ _ _)
      · rcases hq : exportedName q with _ | m
        · simpa [buildSnapshot, List.foldl_cons, hq] using ih init p h1 n hn
        · simpa [buildSnapshot, List.foldl_cons, hq] using
            ih (setEntry init (PropKey.str m) q) p h1 n hn

/-- The memoized scan never touches `lookup` or `deleted`. -/
theorem setLodashFunctionsM_state (env : Env) (s : ProxyState) :
    ((setLodashFunctionsM env s).2.1).lookup = s.lookup ∧
    ((setLodashFunctionsM env s).2.1).deleted = s.deleted := by
  rcases h : s.snapCache with _ | c <;> simp [setLodashFunctionsM, h]

/-- `has` leaves `lookup` and `deleted` untouched (it can only fill the
scan memo). -/
theorem trapHas_state (env : Env) (s : ProxyState) (p : PropKey) :
    ((trapHas env s p).2.1).lookup = s.lookup ∧
    ((trapHas env s p).2.1).deleted = s.deleted := by
  unfold trapHas
  split
  · exact ⟨rfl, rfl⟩
  · split
    · exact ⟨rfl, rfl⟩
    · exact setLodashFunctionsM_state env s

/-- `ownKeys` leaves `lookup` and `deleted` untouched. -/
theorem trapOwnKeys_state (env : Env) (s : ProxyState) :
    ((trapOwnKeys env s).2.1).lookup = s.lookup ∧
    ((trapOwnKeys env s).2.1).deleted = s.deleted := by
  unfold trapOwnKeys
  exact setLodashFunctionsM_state env s

/-! ### Concrete environments and states for witnesses and counterexamples -/

/-- A concrete world: one ancestor directory `proj` whose manifest lists
`lodash.flatten` and `express` as dependencies and `lodash.uniq` as a
dev-dependency; `lodash.flatten` and `lodash.uniq` are installed and
loadable by the ambient `require`; a user-installable loader (identity 5)
can load `lodash.flatten` (to a distinct function object, identity 7)
and `lodash.isstring`; module source text exists for those two ids. -/
def envW : Env where
  manifests := fun d =>
    if d = "proj/package.json" then
      some ⟨["lodash.flatten", "express"], ["lodash.uniq"]⟩
    else none
  ambientModules := fun id =>
    if id = "lodash.flatten" then some (Value.fn 1 "flatten" none)
    else if id = "lodash.uniq" then some (Value.fn 2 "uniq" none)
    else none
  callFn := fun fid id =>
    if fid = 5 && id = "lodash.flatten" then some (Value.fn 7 "flatten" none)
    else if fid = 5 && id = "lodash.isstring" then some (Value.fn 8 "isString" none)
    else none
  sourceText := fun id =>
    if id = "lodash.flatten" then some "SRC"
    else if id = "lodash.isstring" then some "SRC2"
    else none
  paths := ["proj"]

/-- A state with one user-assigned function `mine`. -/
def sW : ProxyState := ⟨[(PropKey.str "mine", Value.fn 9 "mine" none)], [], none⟩

/-- A state where the user has set the `__require` override to the
loader with identity 5. -/
def sR : ProxyState := ⟨[(PropKey.str "__require", Value.fn 5 "require" none)], [], none⟩

/-! ### The claims -/

/-- Claim C1: for every name that is an own entry of the Lookup object and
is not tombstoned, the `get` trap returns exactly the stored value, with
no resolver load attempted; and a resolver load is only ever attempted
for a name Lookup does not own (and that is not tombstoned). -/
theorem C1_user_precedence (env : Env) (s : ProxyState) (p : PropKey) (v : Value)
    (hdel : flagOf s.deleted p = false) (hown : getOwn s.lookup p = some v) :
    trapGet env s p = (Except.ok v, []) ∧
    (∀ q : PropKey, (trapGet env s q).2 ≠ [] →
        getOwn s.lookup q = none ∧ flagOf s.deleted q = false) := by
  constructor
  · simp [trapGet, hdel, hown]
  · intro q hq
    by_cases h1 : flagOf s.deleted q
    · simp [trapGet, h1] at hq
    · rcases h2 : getOwn s.lookup q with _ | w
      · exact ⟨rfl, by simpa using h1⟩
      · simp [trapGet, h1, h2] at hq

/-- Claim C1, instantiated: reading the user-assigned `mine` returns the
assigned function unchanged and attempts no load. -/
theorem C1_user_precedence_witness :
    trapGet envW sW (PropKey.str "mine") = (Except.ok (Value.fn 9 "mine" none), []) ∧
    (∀ q : PropKey, (trapGet envW sW q).2 ≠ [] →
        getOwn sW.lookup q = none ∧ flagOf sW.deleted q = false) :=
  C1_user_precedence envW sW (PropKey.str "mine") (Value.fn 9 "mine" none) rfl rfl

/-- Claim C2 (code bug): with no `__require` override set, the `get` trap
passes `lookup.__require` — `undefined` — as the loader; the parameter
shadows the ambient `require`, so resolution of any non-own,
non-tombstoned name throws the `ReferenceError`, for every environment,
however many modules the ambient loader could supply. -/
theorem C2_default_loader_is_undefined (env : Env) (s : ProxyState) (n : String)
    (hreq : getOwn s.lookup (PropKey.str "__require") = none)
    (hdel : flagOf s.deleted (PropKey.str n) = false)
    (hown : getOwn s.lookup (PropKey.str n) = none) :
    (trapGet env s (PropKey.str n)).1 = Except.error (JsError.referenceError
      ("Could not find " ++ n ++ ", did you forget to install " ++ getLodashId n)) := by
  simp [trapGet, hdel, hown, hreq, lodashRequire, requireStep]

/-- Claim C2 at the failing input: `lodash.flatten` is installed and the
ambient loader would return it, yet reading `flatten` on the fresh
export (no override set) throws. -/
theorem C2_default_loader_is_undefined_witness :
    envW.ambientModules "lodash.flatten" = some (Value.fn 1 "flatten" none) ∧
    (trapGet envW initState (PropKey.str "flatten")).1 = Except.error
      (JsError.referenceError
        "Could not find flatten, did you forget to install lodash.flatten") := by
  refine ⟨rfl, ?_⟩
  have h := C2_default_loader_is_undefined envW initState "flatten" rfl rfl rfl
  have hmsg : ("Could not find " ++ "flatten" ++ ", did you forget to install "
      ++ getLodashId "flatten") = "Could not find flatten, did you forget to install lodash.flatten" := by
    decide
  rw [hmsg] at h
  exact h

/-- Claim C3: after `delete`, the name is tombstoned: `get` yields
`undefined`, `has` is false, and the name is excluded from `ownKeys`;
the tombstone survives every public operation except a write to that
very name; and after `set(name, value)`, `has` is true again and `get`
returns `value`. -/
theorem C3_delete_until_write (env : Env) (s : ProxyState) (p : PropKey) :
    flagOf (trapDeleteProperty s p).deleted p = true ∧
    (trapGet env (trapDeleteProperty s p) p).1 = Except.ok Value.undefined ∧
    (trapHas env (trapDeleteProperty s p) p).1 = false ∧
    p ∉ (trapOwnKeys env (trapDeleteProperty s p)).1 ∧
    (∀ t : ProxyState, ∀ op : Op, (∀ v : Value, op ≠ Op.writeP p v) →
        flagOf t.deleted p = true → flagOf (step env t op).deleted p = true) ∧
    (∀ t : ProxyState, ∀ v : Value,
        (trapHas env (trapSet t p v) p).1 = true ∧
        (trapGet env (trapSet t p v) p).1 = Except.ok v) := by
  have hflag : flagOf (trapDeleteProperty s p).deleted p = true := by
    simp [trapDeleteProperty, flagOf_setFlag_self]
  refine ⟨hflag, ?_, ?_, ?_, ?_, ?_⟩
  · simp [trapGet, hflag]
  · simp [trapHas, hflag]
  · intro hmem
    rcases List.mem_filter.mp hmem with ⟨-, hfalse⟩
    rw [hflag] at hfalse
    exact Bool.noConfusion (of_decide_eq_true hfalse)
  · intro t op hne ht
    cases op with
    | readP q => exact ht
    | writeP q v =>
        have hqp : q ≠ p := fun hq => hne v (by rw [hq])
        simpa [step, trapSet, flagOf_setFlag_ne t.deleted q p false (Ne.symm hqp)] using ht
    | hasP q =>
        rw [show (step env t (Op.hasP q)).deleted = t.deleted from
          (trapHas_state env t q).2]
        exact ht
    | keysP =>
        rw [show (step env t Op.keysP).deleted = t.deleted from
          (trapOwnKeys_state env t).2]
        exact ht
    | deleteP q =>
        by_cases hq : q = p
        · subst hq
          simp [step, trapDeleteProperty, flagOf_setFlag_self]
        · simpa [step, trapDeleteProperty, flagOf_setFlag_ne t.deleted q p true (Ne.symm hq)] using ht
  · intro t v
    have h1 : flagOf (trapSet t p v).deleted p = false := by
      simp [trapSet, flagOf_setFlag_self]
    have h2 : getOwn (trapSet t p v).lookup p = some v := by
      simp [trapSet, getOwn_setEntry_self]
    constructor
    · simp [trapHas, h1, h2]
    · simp [trapGet, h1, h2]

/-- Claim C3, instantiated: delete `gone` on the fresh state, observe it
absent, keep it tombstoned across an unrelated read, then write it back
and observe the written value. -/
theorem C3_delete_until_write_witness :
    (trapGet envW (trapDeleteProperty initState (PropKey.str "gone"))
        (PropKey.str "gone")).1 = Except.ok Value.undefined ∧
    (trapHas envW (trapDeleteProperty initState (PropKey.str "gone"))
        (PropKey.str "gone")).1 = false ∧
    flagOf (step envW (trapDeleteProperty initState (PropKey.str "gone"))
        (Op.readP (PropKey.str "other"))).deleted (PropKey.str "gone") = true ∧
    (trapGet envW (trapSet (trapDeleteProperty initState (PropKey.str "gone"))
        (PropKey.str "gone") (Value.strV "v")) (PropKey.str "gone")).1 =
      Except.ok (Value.strV "v") := by
  obtain ⟨h1, h2, h3, h4, h5, h6⟩ :=
    C3_delete_until_write envW initState (PropKey.str "gone")
  refine ⟨h2, h3, ?_, (h6 (trapDeleteProperty initState (PropKey.str "gone")) (Value.strV "v")).2⟩
  exact h5 (trapDeleteProperty initState (PropKey.str "gone"))
    (Op.readP (PropKey.str "other")) (fun v hv => Op.noConfusion hv) h1

/-- Claim C4, counterexample: on the fresh export, the very first
existence check for `flatten` — listed in the ancestor manifest and
installed — returns true but, as a side effect, hands both manifest
candidates (`lodash.flatten`, `lodash.uniq`) to the ambient `require`:
the check does load modules. -/
theorem C4_counterexample :
    (trapHas envW initState (PropKey.str "flatten")).1 = true ∧
    (trapHas envW initState (PropKey.str "flatten")).2.2 =
      ["lodash.flatten", "lodash.uniq"] ∧
    (trapHas envW initState (PropKey.str "flatten")).2.2 ≠ [] := by
  refine ⟨rfl, rfl, ?_⟩
  intro h
  exact List.noConfusion h

/-- Claim C4, amended: an existence check never invokes the Module
Resolver's injectable loading function (the result and side effects of
`has` are independent of how function values behave when called), and
once the scan is memoized an existence check loads nothing at all. -/
theorem C4_has_loads_scanner_only (env : Env) (f : Nat → String → Option Value)
    (s : ProxyState) (p : PropKey) :
    trapHas { env with callFn := f } s p = trapHas env s p ∧
    (∀ c : List (PropKey × Value), s.snapCache = some c →
        (trapHas env s p).2.2 = []) := by
  constructor
  · rfl
  · intro c hc
    unfold trapHas
    split
    · rfl
    · split
      · rfl
      · simp [setLodashFunctionsM, hc]

/-- Claim C4 (amended), instantiated: with the scan already memoized,
checking `flatten` again loads nothing, and swapping out every
function-call behaviour leaves the check unchanged. -/
theorem C4_has_loads_scanner_only_witness :
    trapHas { envW with callFn := fun _ _ => none } (trapHas envW initState (PropKey.str "flatten")).2.1
        (PropKey.str "flatten") =
      trapHas envW (trapHas envW initState (PropKey.str "flatten")).2.1 (PropKey.str "flatten") ∧
    (trapHas envW (trapHas envW initState (PropKey.str "flatten")).2.1 (PropKey.str "flatten")).2.2 = [] := by
  obtain ⟨h1, h2⟩ := C4_has_loads_scanner_only envW (fun _ _ => none)
    (trapHas envW initState (PropKey.str "flatten")).2.1 (PropKey.str "flatten")
  exact ⟨h1, h2 (buildSnapshot [] (scanPackages envW).1) rfl⟩

/-- Claim C5, counterexample: with a working `__require` override and
`lodash.flatten` loadable, reading `flatten` resolves successfully, but
the `get` trap mutates nothing: the resolved function is not stored into
Lookup, and an immediate second read hands `lodash.flatten` to the
loader again. -/
theorem C5_counterexample :
    (trapGet envW sR (PropKey.str "flatten")).1 =
      Except.ok (Value.fn 7 "flatten" (some (wrapSource "flatten" "SRC"))) ∧
    step envW sR (Op.readP (PropKey.str "flatten")) = sR ∧
    getOwn (step envW sR (Op.readP (PropKey.str "flatten"))).lookup
      (PropKey.str "flatten") = none ∧
    (trapGet envW (step envW sR (Op.readP (PropKey.str "flatten")))
      (PropKey.str "flatten")).2 = ["lodash.flatten"] :=
  ⟨rfl, rfl, rfl, rfl⟩

/-- Claim C5, amended: a read of a non-own, non-tombstoned name leaves
the state unchanged (nothing is cached into Lookup), attempts the module
load on every such read, and repeated reads return identical results. -/
theorem C5_read_never_caches (env : Env) (s : ProxyState) (n : String)
    (hdel : flagOf s.deleted (PropKey.str n) = false)
    (hown : getOwn s.lookup (PropKey.str n) = none) :
    step env s (Op.readP (PropKey.str n)) = s ∧
    (trapGet env s (PropKey.str n)).2 = [getLodashId n] ∧
    trapGet env (step env s (Op.readP (PropKey.str n))) (PropKey.str n) =
      trapGet env s (PropKey.str n) := by
  refine ⟨rfl, ?_, rfl⟩
  simp [trapGet, hdel, hown]

/-- Claim C5 (amended), instantiated at the override state and `flatten`. -/
theorem C5_read_never_caches_witness :
    step envW sR (Op.readP (PropKey.str "flatten")) = sR ∧
    (trapGet envW sR (PropKey.str "flatten")).2 = [getLodashId "flatten"] ∧
    trapGet envW (step envW sR (Op.readP (PropKey.str "flatten")))
      (PropKey.str "flatten") = trapGet envW sR (PropKey.str "flatten") :=
  C5_read_never_caches envW sR "flatten" rfl rfl

/-- Claim C6, counterexample: two exceptions other than the NotFound
`ReferenceError` reach the caller.  Reading a symbol-named property that
Lookup does not own throws a `TypeError` (the module-id derivation
applies `toLowerCase` to the symbol before the guarded load); and a
strict-mode `delete` of a string-named property throws a `TypeError`
after tombstoning, because the trap returns `undefined`, which
`[[Delete]]` coerces to a falsish report. -/
theorem C6_counterexample :
    (trapGet envW initState (PropKey.sym 0)).1 = Except.error JsError.typeError ∧
    (deleteOp initState (PropKey.str "flatten")).2.2 = Except.error JsError.typeError ∧
    flagOf (deleteOp initState (PropKey.str "flatten")).1.deleted
      (PropKey.str "flatten") = true :=
  ⟨rfl, rfl, rfl⟩

/-- Claim C6, amended: for string-named reads, writes, existence checks
and enumeration the only exception that reaches the caller is the
NotFound `ReferenceError` carrying the derived module id (writes,
existence checks and enumeration raise nothing at all); but a
symbol-named read of a non-own, non-tombstoned property throws a
`TypeError`, and every delete — string- or symbol-named — reports
failure (`[[Delete]]` coerces the trap's `undefined` to false), so a
strict-mode caller's `delete` throws a `TypeError` even though the
tombstone has been set. -/
theorem C6_only_notfound_on_strings (env : Env) (s : ProxyState) :
    (∀ (n : String) (e : JsError), (trapGet env s (PropKey.str n)).1 = Except.error e →
        e = JsError.referenceError
          ("Could not find " ++ n ++ ", did you forget to install " ++ getLodashId n)) ∧
    (∀ i : Nat, flagOf s.deleted (PropKey.sym i) = false →
        getOwn s.lookup (PropKey.sym i) = none →
        (trapGet env s (PropKey.sym i)).1 = Except.error JsError.typeError) ∧
    (∀ p : PropKey,
        (deleteOp s p).2.1 = false ∧
        (deleteOp s p).2.2 = Except.error JsError.typeError ∧
        flagOf (deleteOp s p).1.deleted p = true) := by
  refine ⟨?_, ?_, ?_⟩
  · intro n e he
    by_cases h1 : flagOf s.deleted (PropKey.str n)
    · simp [trapGet, h1] at he
    · rcases h2 : getOwn s.lookup (PropKey.str n) with _ | w
      · have he' : lodashRequire env
            ((getOwn s.lookup (PropKey.str "__require")).getD Value.undefined) n =
            Except.error e := by
          rw [trapGet] at he
          simpa [h1, h2] using he
        rcases h3 : requireStep env
            ((getOwn s.lookup (PropKey.str "__require")).getD Value.undefined) n
            (getLodashId n) with _ | v
        · simp only [lodashRequire, h3] at he'
          exact (Except.error.inj he').symm
        · simp only [lodashRequire, h3] at he'
          exact Except.noConfusion he'
      · simp [trapGet, h1, h2] at he
  · intro i hdel hown
    simp [trapGet, hdel, hown]
  · intro p
    refine ⟨rfl, rfl, ?_⟩
    simp [deleteOp, trapDeleteProperty, flagOf_setFlag_self]

/-- Claim C6 (amended), instantiated: a symbol read on the fresh state
raises the `TypeError`, and a strict-mode delete of a string name does
too, with the tombstone nevertheless set. -/
theorem C6_only_notfound_on_strings_witness :
    (trapGet envW initState (PropKey.sym 1)).1 = Except.error JsError.typeError ∧
    (deleteOp initState (PropKey.str "uniq")).2.2 = Except.error JsError.typeError ∧
    flagOf (deleteOp initState (PropKey.str "uniq")).1.deleted
      (PropKey.str "uniq") = true :=
  ⟨(C6_only_notfound_on_strings envW initState).2.1 1 rfl rfl,
   ((C6_only_notfound_on_strings envW initState).2.2 (PropKey.str "uniq")).2.1,
   ((C6_only_notfound_on_strings envW initState).2.2 (PropKey.str "uniq")).2.2⟩

/-- Claim C7: when the probe reports the interception mechanism
unavailable, the export is the flat object populated by the ancestor
manifest scan: it contains every successfully loaded module that exposes
a function name, and reading any name absent from that snapshot yields
`undefined` (a plain property read — no lazy resolution, no error). -/
theorem C7_fallback_complete (env : Env) :
    moduleInit env none = Exported.flat (fallbackExport env) ∧
    (∀ p ∈ (scanPackages env).1, ∀ n : String, exportedName p = some n →
        PropKey.str n ∈ keysOf (fallbackExport env)) ∧
    (∀ k : PropKey, k ∉ keysOf (fallbackExport env) →
        plainGet (fallbackExport env) k = Value.undefined) := by
  refine ⟨rfl, ?_, ?_⟩
  · intro p hp n hn
    exact mem_keys_buildSnapshot (scanPackages env).1 [] p hp n hn
  · intro k hk
    rw [plainGet, (getOwn_eq_none_iff _ _).mpr hk]
    rfl

/-- Claim C7, instantiated: in fallback mode over the concrete world the
export is the flat snapshot; `flatten` (scanned successfully) is one of
its keys, and the unscanned `isString` reads as `undefined`. -/
theorem C7_fallback_complete_witness :
    moduleInit envW none = Exported.flat (fallbackExport envW) ∧
    PropKey.str "flatten" ∈ keysOf (fallbackExport envW) ∧
    plainGet (fallbackExport envW) (PropKey.str "isString") = Value.undefined := by
  obtain ⟨h1, h2, h3⟩ := C7_fallback_complete envW
  exact ⟨h1, h2 (Value.fn 1 "flatten" none) (by decide) "flatten" rfl,
    h3 (PropKey.str "isString") (by decide)⟩

/-- Claim C8: `ownKeys` is duplicate-free and contains exactly the union
of Lookup's own keys and the scan snapshot's keys, minus every
tombstoned key — so it never lists a tombstoned name and always lists
every user-assigned, non-deleted name. -/
theorem C8_enumerate_exact (env : Env) (s : ProxyState) :
    ((trapOwnKeys env s).1).Nodup ∧
    (∀ k : PropKey, k ∈ (trapOwnKeys env s).1 ↔
      ((k ∈ keysOf s.lookup ∨ k ∈ keysOf (setLodashFunctionsM env s).1) ∧
        flagOf s.deleted k = false)) := by
  constructor
  · exact List.Nodup.filter _ (nodup_uniqKeys _)
  · intro k
    rw [trapOwnKeys]
    constructor
    · intro h
      rcases List.mem_filter.mp h with ⟨hmem, hflag⟩
      refine ⟨?_, of_decide_eq_true hflag⟩
      simpa [List.mem_append] using (mem_uniqKeys _ k).mp hmem
    · rintro ⟨hmem, hflag⟩
      refine List.mem_filter.mpr ⟨?_, decide_eq_true hflag⟩
      rw [mem_uniqKeys, List.mem_append]
      exact hmem

/-- Claim C8, instantiated: with `mine` assigned and `uniq` deleted, the
enumeration lists `mine` and the scanned `flatten` but not `uniq`. -/
theorem C8_enumerate_exact_witness :
    PropKey.str "mine" ∈ (trapOwnKeys envW
      { sW with deleted := [(PropKey.str "uniq", true)] }).1 ∧
    PropKey.str "uniq" ∉ (trapOwnKeys envW
      { sW with deleted := [(PropKey.str "uniq", true)] }).1 := by
  obtain ⟨h1, h2⟩ := C8_enumerate_exact envW { sW with deleted := [(PropKey.str "uniq", true)] }
  constructor
  · exact (h2 (PropKey.str "mine")).mpr ⟨Or.inl (by decide), rfl⟩
  · intro h
    have := ((h2 (PropKey.str "uniq")).mp h).2
    exact Bool.noConfusion this

/-- Claim C9, counterexample: with the `__require` override set to the
loader with identity 5 — which would load `lodash.flatten` to the
distinct function object 7 — the Static Scanner's snapshot still holds
the ambient loader's object 1: the scan does not use the override. -/
theorem C9_counterexample :
    getOwn sR.lookup (PropKey.str "__require") = some (Value.fn 5 "require" none) ∧
    envW.callFn 5 "lodash.flatten" = some (Value.fn 7 "flatten" none) ∧
    getOwn (setLodashFunctionsM envW sR).1 (PropKey.str "flatten") =
      some (Value.fn 1 "flatten" none) ∧
    (Value.fn 1 "flatten" none : Value) ≠ Value.fn 7 "flatten" none := by
  refine ⟨rfl, rfl, rfl, ?_⟩
  intro h
  exact absurd (congrArg (fun v => match v with
    | Value.fn i _ _ => i
    | _ => 0) h) (by decide)

/-- Claim C9, amended: once written, `__require` is the loading function
used for lazy `get` resolution — but only there: the Static Scanner's
snapshot is computed from the ambient loader alone and does not depend
on the Lookup object (hence not on the override) at all. -/
theorem C9_override_resolver_only (env : Env) (s : ProxyState) (n : String) (r : Value)
    (hreq : getOwn s.lookup (PropKey.str "__require") = some r)
    (hdel : flagOf s.deleted (PropKey.str n) = false)
    (hown : getOwn s.lookup (PropKey.str n) = none) :
    (trapGet env s (PropKey.str n)).1 = lodashRequire env r n ∧
    (∀ (lk lk' : List (PropKey × Value)) (d d' : List (PropKey × Bool))
        (c : Option (List (PropKey × Value))),
        (setLodashFunctionsM env ⟨lk, d, c⟩).1 = (setLodashFunctionsM env ⟨lk', d', c⟩).1) := by
  constructor
  · simp [trapGet, hdel, hown, hreq]
  · intro lk lk' d d' c
    cases c <;> rfl

/-- Claim C9 (amended), instantiated: with the override installed, the
read of `flatten` goes through the override's loader (object 7), while
the scanner's snapshot is the same whether or not the override is in
the Lookup object. -/
theorem C9_override_resolver_only_witness :
    (trapGet envW sR (PropKey.str "flatten")).1 =
      lodashRequire envW (Value.fn 5 "require" none) "flatten" ∧
    (setLodashFunctionsM envW ⟨sR.lookup, [], none⟩).1 =
      (setLodashFunctionsM envW ⟨[], [], none⟩).1 := by
  obtain ⟨h1, h2⟩ := C9_override_resolver_only envW sR "flatten"
    (Value.fn 5 "require" none) rfl rfl rfl
  exact ⟨h1, h2 sR.lookup [] [] [] none⟩

/-- Claim C10: existence and read can disagree — for a name Lookup does
not own, not tombstoned and absent from the memoized scan snapshot,
`has` answers false (it consults only Lookup and the snapshot), even
while `get` would resolve the name through the loader and return the
function. -/
theorem C10_has_get_disagree (env : Env) (s : ProxyState) (n : String) (r f : Value)
    (hown : getOwn s.lookup (PropKey.str n) = none)
    (hdel : flagOf s.deleted (PropKey.str n) = false)
    (hsnap : PropKey.str n ∉ keysOf (setLodashFunctionsM env s).1)
    (hreq : getOwn s.lookup (PropKey.str "__require") = some r)
    (hres : requireStep env r n (getLodashId n) = some f) :
    (trapHas env s (PropKey.str n)).1 = false ∧
    (trapGet env s (PropKey.str n)).1 = Except.ok f := by
  constructor
  · have h4 : getOwn (setLodashFunctionsM env s).1 (PropKey.str n) = none :=
      (getOwn_eq_none_iff _ _).mpr hsnap
    simp [trapHas, hdel, hown, h4]
  · simp [trapGet, hdel, hown, hreq, lodashRequire, hres]

/-- Claim C10, instantiated: `lodash.isstring` is loadable through the
installed override but absent from the manifests, so `has` denies
`isString` while `get` returns the loaded function. -/
theorem C10_has_get_disagree_witness :
    (trapHas envW sR (PropKey.str "isString")).1 = false ∧
    (trapGet envW sR (PropKey.str "isString")).1 =
      Except.ok (Value.fn 8 "isString" (some (wrapSource "isString" "SRC2"))) :=
  C10_has_get_disagree envW sR "isString" (Value.fn 5 "require" none)
    (Value.fn 8 "isString" (some (wrapSource "isString" "SRC2")))
    rfl rfl (by decide) rfl rfl
